import Mathlib

/-!
Verification of the Hy2DL training-loop glue and dataset-merging adapters.

The development shallowly embeds the two modules
`hy2dl/aux_functions/utils.py` and `hy2dl/datasetzoo/camelsde_caravan.py`:
pandas data frames become finite association tables, torch tensors become
value/device pairs, library calls whose body lives outside the repository
(`torch.nn.utils.clip_grad_norm_`, `torch.optim.Adam.step`, file-system
reads) are passed in as explicit parameters, and Python exceptions become
`Except` values.
-/

namespace Hy2DL

/-! ## Pandas-like data frames

A data frame is a list of columns together with rows; each row is a string
index label paired with an association list from column name to cell value.
A column name absent from a row's association list models a NaN cell.
Cell values are abstracted to `Int` (the attribute tables are numeric after
`pd.factorize`). -/

structure DF where
  cols : List String
  rows : List (String × List (String × Int))
deriving DecidableEq, Repr

/-- Cell of `df` at row label `i`, column `c`; `none` models NaN/absent. -/
def DF.cell (df : DF) (i c : String) : Option Int :=
  match df.rows.find? (fun r => r.1 == i) with
  | none => none
  | some r =>
    match r.2.find? (fun p => p.1 == c) with
    | none => none
    | some p => some p.2

/-- Rename every row label by `f`, keeping cells (pandas `df.index = f(df.index)`). -/
def DF.renameIndex (f : String → String) (df : DF) : DF :=
  { cols := df.cols, rows := df.rows.map (fun r => (f r.1, r.2)) }

/-- Rename every column name by `f`. -/
def DF.renameCols (f : String → String) (df : DF) : DF :=
  { cols := df.cols.map f,
    rows := df.rows.map (fun r => (r.1, r.2.map (fun p => (f p.1, p.2)))) }

/-- The column renaming pandas applies to the right table of a join with
`rsuffix="_caravan"`: column names also present on the left get the suffix. -/
def rsuffixCaravan (leftCols : List String) (c : String) : String :=
  if leftCols.contains c then c ++ "_caravan" else c

/-- Outer join on the row index, as in pandas
`l.join(r, how="outer", rsuffix="_caravan")`: right columns clashing with
left ones are suffixed, a merged row carries the left cells followed by the
right cells, and rows present only on the right are appended. -/
def DF.join (l r : DF) : DF :=
  let r' := r.renameCols (rsuffixCaravan l.cols)
  { cols := l.cols ++ r'.cols,
    rows :=
      l.rows.map (fun lr =>
        (lr.1, lr.2 ++
          (match r'.rows.find? (fun rr => rr.1 == lr.1) with
           | none => []
           | some rr => rr.2)))
      ++ r'.rows.filter (fun rr => !(l.rows.any (fun lr => lr.1 == rr.1))) }

/-- Restriction `df.loc[ids, cols]`: the requested rows in the requested
order, each holding the requested columns. -/
def DF.loc (df : DF) (ids cols : List String) : DF :=
  { cols := cols,
    rows := ids.map (fun i =>
      (i, cols.filterMap (fun c => (df.cell i c).map (fun v => (c, v))))) }

/-! ## The index rewriting applied to the CARAVAN attribute table

`caravan_attrs.index.str.replace("camelsde_", "")` removes EVERY occurrence
of the literal substring `"camelsde_"`, scanning left to right. -/

def camelsdeChars : List Char := "camelsde_".toList

/-- Left-to-right removal of every occurrence of `"camelsde_"`; the fuel is
an upper bound on the number of characters still to examine and never runs
out when it starts at the length of the list. -/
def removeCamelsdeFuel : Nat → List Char → List Char
  | 0, l => l
  | _ + 1, [] => []
  | n + 1, c :: cs =>
    if (c :: cs).take 9 = camelsdeChars then removeCamelsdeFuel n (cs.drop 8)
    else c :: removeCamelsdeFuel n cs

/-- `s.str.replace("camelsde_", "")` of pandas: every occurrence of the
substring is removed, not only a leading one. -/
def pyReplaceCamelsde (s : String) : String :=
  ⟨removeCamelsdeFuel s.toList.length s.toList⟩

/-- Modelled from the spec: the claim reads the index rewriting as stripping
only the LEADING `"camelsde_"` of each label. -/
def stripLeadingCamelsde (s : String) : String :=
  if s.toList.take 9 = camelsdeChars then ⟨s.toList.drop 9⟩ else s

/-! ## `UnifiedCAMELSDE_CARAVAN._read_attributes`

The CSV reading and `pd.factorize` preprocessing are file I/O; the two
already-read attribute tables enter as parameters, and the function is the
tail of the Python method: rewrite the CARAVAN index, outer-join, restrict. -/

def read_attributes (camelsde_attrs caravan_attrs : DF)
    (entities_ids static_input : List String) : DF :=
  let caravan' := caravan_attrs.renameIndex pyReplaceCamelsde
  let merged := camelsde_attrs.join caravan'
  merged.loc entities_ids static_input

/-- Modelled from the spec: `_read_attributes` as the claim words it, with
the CARAVAN index merely stripped of its leading `"camelsde_"`. -/
def read_attributes_claimed (camelsde_attrs caravan_attrs : DF)
    (entities_ids static_input : List String) : DF :=
  let caravan' := caravan_attrs.renameIndex stripLeadingCamelsde
  let merged := camelsde_attrs.join caravan'
  merged.loc entities_ids static_input

/-! ## `UnifiedCAMELSDE_CARAVAN._read_data` and `_map_gauge_id` -/

def map_gauge_id (gauge_id : String) : String := "camelsde_" ++ gauge_id

/-- `_read_data`: the CAMELS-DE file system is a total lookup by catchment
id, the CARAVAN one a partial lookup by mapped id (`none` models a missing
`{caravan_id}.csv`, the `caravan_filepath.exists()` test). -/
def read_data (camelsdeFS : String → DF) (caravanFS : String → Option DF)
    (catch_id : String) : DF :=
  let caravan_id := map_gauge_id catch_id
  let camelsde_ts := camelsdeFS catch_id
  match caravanFS caravan_id with
  | some caravan_ts => camelsde_ts.join caravan_ts
  | none => camelsde_ts

/-! ## The `Optimizer` class

A `model_configuration` value is a Python dict; the three keys the
constructor inspects are modelled explicitly.  `learning_rate` can hold a
float (`num`, abstracted to `Rat`), a dict from epoch to rate (`dict`), be
of some other type (`other`), or be absent (`Option.none`). -/

inductive ConfigVal where
  | num (v : Rat)
  | dict (d : List (Int × Rat))
  | other
deriving DecidableEq, Repr

structure ModelConfig where
  learning_rate : Option ConfigVal
  adapt_learning_rate_epoch : Option Int
  adapt_gamma_learning_rate : Option Rat
deriving DecidableEq, Repr

/-- The Python errors the constructor can raise. -/
inductive PyError where
  | unboundLocalError
  | valueError
deriving DecidableEq, Repr

def pyLower (s : String) : String := ⟨s.toList.map Char.toLower⟩

/-- Whether the local variable `optimizer_class` is assigned: the guard
`optimizer is None or optimizer.lower() == "adam"` of the constructor. -/
def optimizerClassAssigned (optimizer : Option String) : Bool :=
  match optimizer with
  | none => true
  | some s => pyLower s == "adam"

/-- `self.learning_rate[key]` for a dict-valued learning rate. -/
def dictLookup (d : List (Int × Rat)) (k : Int) : Option Rat :=
  (d.find? (fun p => p.1 == k)).map Prod.snd

/-- The loop of `_find_learning_rate` over the descending key list: the
value of the first key `≤ epoch`, `none` when the loop falls through. -/
def findFirstLE (d : List (Int × Rat)) (epoch : Int) : List Int → Option Rat
  | [] => none
  | k :: ks => if epoch ≥ k then dictLookup d k else findFirstLE d epoch ks

/-- `Optimizer._find_learning_rate`: iterate over
`sorted(self.learning_rate.keys(), reverse=True)` and return the value of
the first key the epoch has reached (Python returns `None` implicitly). -/
def find_learning_rate (d : List (Int × Rat)) (epoch : Int) : Option Rat :=
  findFirstLE d epoch (List.insertionSort (· ≥ ·) (d.map Prod.fst))

/-- The state an `Optimizer` instance carries.  The torch `Adam` optimizer
is abstracted to its parameter groups (each holding its `lr`, an
`Option Rat` since Python can store `None` there), and the torch `StepLR`
scheduler to its construction arguments plus a count of `step()` calls. -/
structure OptimizerState where
  learning_rate_type : String
  learning_rate_dict : List (Int × Rat)
  scheduler_step_size : Int
  scheduler_gamma : Rat
  scheduler_steps : Nat
  param_groups : List (Option Rat)
deriving DecidableEq, Repr

/-- `Optimizer.__init__`.  The branch structure follows the source: float
learning rate without either scheduler key, float with both keys, dict
learning rate, otherwise `ValueError`.  A branch that constructs the torch
optimizer reads the local `optimizer_class`, which was only assigned when
the optimizer name is `None` or `"adam"` case-insensitively; otherwise the
read raises `UnboundLocalError`. -/
def optimizerInit (optimizer : Option String) (cfg : ModelConfig) :
    Except PyError OptimizerState :=
  let assigned := optimizerClassAssigned optimizer
  match cfg.learning_rate, cfg.adapt_learning_rate_epoch,
      cfg.adapt_gamma_learning_rate with
  | some (.num v), none, none =>
    if assigned then
      .ok { learning_rate_type := "constant", learning_rate_dict := [],
            scheduler_step_size := 0, scheduler_gamma := 0,
            scheduler_steps := 0, param_groups := [some v] }
    else .error .unboundLocalError
  | some (.num v), some e, some g =>
    if assigned then
      .ok { learning_rate_type := "scheduler", learning_rate_dict := [],
            scheduler_step_size := e, scheduler_gamma := g,
            scheduler_steps := 0, param_groups := [some v] }
    else .error .unboundLocalError
  | some (.dict d), _, _ =>
    if assigned then
      .ok { learning_rate_type := "custom_scheduler", learning_rate_dict := d,
            scheduler_step_size := 0, scheduler_gamma := 0,
            scheduler_steps := 0,
            param_groups := [find_learning_rate d 1] }
    else .error .unboundLocalError
  | _, _, _ => .error .valueError

/-- Shape of a configuration taken by the first constructor branch. -/
def constantShape (cfg : ModelConfig) : Bool :=
  (match cfg.learning_rate with | some (.num _) => true | _ => false)
    && cfg.adapt_learning_rate_epoch.isNone
    && cfg.adapt_gamma_learning_rate.isNone

/-- Shape of a configuration taken by the second constructor branch. -/
def schedulerShape (cfg : ModelConfig) : Bool :=
  (match cfg.learning_rate with | some (.num _) => true | _ => false)
    && cfg.adapt_learning_rate_epoch.isSome
    && cfg.adapt_gamma_learning_rate.isSome

/-- Shape of a configuration taken by the third constructor branch. -/
def customShape (cfg : ModelConfig) : Bool :=
  match cfg.learning_rate with | some (.dict _) => true | _ => false

/-- `Optimizer.update_optimizer_lr`: advance the scheduler in
`"scheduler"` mode, rewrite every parameter group's `lr` in
`"custom_scheduler"` mode, do nothing otherwise. -/
def update_optimizer_lr (st : OptimizerState) (epoch : Int) : OptimizerState :=
  if st.learning_rate_type == "scheduler" then
    { st with scheduler_steps := st.scheduler_steps + 1 }
  else if st.learning_rate_type == "custom_scheduler" then
    { st with param_groups := st.param_groups.map (fun _ => find_learning_rate st.learning_rate_dict epoch) }
  else st

/-! ## `Optimizer.clip_grad_and_step`

The torch model is abstracted to its parameter and gradient vectors.  The
library calls are parameters: `clipFn maxNorm grads` is
`torch.nn.utils.clip_grad_norm_` (which rescales the gradients in place and
raises when they are non-finite — an `Except`), and `step` is
`optimizer.step()`, which updates the parameters from the gradients. -/

structure TorchModelState where
  params : List Int
  grads : List Int
deriving DecidableEq, Repr

/-- `Optimizer.clip_grad_and_step`: call the clipper with `max_norm=1`; on
an exception print and return without stepping, otherwise step the
optimizer on the clipped gradients. -/
def clip_grad_and_step (_epoch _batch : Int)
    (clipFn : Int → List Int → Except String (List Int))
    (step : TorchModelState → TorchModelState)
    (st : TorchModelState) : TorchModelState :=
  match clipFn 1 st.grads with
  | .error _ => st
  | .ok g => step { st with grads := g }

/-! ## `upload_to_device`

A sample is a Python dict: keys in insertion order, each holding either a
tensor (a value together with the device it lives on) or a non-tensor
payload (the `"basin"` and `"date"` entries). -/

inductive Entry where
  | tens (val : Int) (device : String)
  | raw (s : String)
deriving DecidableEq, Repr

/-- `tensor.to(device)`: the tensor's data is unchanged, its device is
replaced (non-tensor payloads are only ever skipped by the caller). -/
def Entry.toDevice (e : Entry) (device : String) : Entry :=
  match e with
  | .tens v _ => .tens v device
  | .raw s => .raw s

/-- `upload_to_device`: iterate over the dict's keys and for every key not
in `("basin", "date")` overwrite the entry with the tensor moved to the
device; the updated dict is what the function returns. -/
def upload_to_device (sample : List (String × Entry)) (device : String) :
    List (String × Entry) :=
  sample.map (fun kv =>
    if kv.1 == "basin" || kv.1 == "date" then kv
    else (kv.1, kv.2.toDevice device))

/-! ## `set_random_seed` and the process-wide RNG state -/

/-- The process-wide random-generator state the modules can touch: the
seeds of the `random`, `numpy`, `torch` and `torch.cuda` generators. -/
structure RNGState where
  pythonSeed : Int
  numpySeed : Int
  torchSeed : Int
  torchCudaSeed : Int
deriving DecidableEq, Repr

/-- `set_random_seed`: when no seed is given one is drawn from numpy
(`drawn` is that draw, `int(np.random.uniform(low=0, high=1e6))`); the
chosen seed is then installed in all four generators. -/
def set_random_seed (seed : Option Int) (drawn : Int) (_w : RNGState) :
    RNGState :=
  let s := match seed with | some s => s | none => drawn
  { pythonSeed := s, numpySeed := s, torchSeed := s, torchCudaSeed := s }

/-- The process state a training step can see: the RNG state plus the
objects the caller shares with the callee. -/
structure World where
  rng : RNGState
  sample : List (String × Entry)
  model : TorchModelState
  optim : OptimizerState
deriving DecidableEq, Repr

/-- `upload_to_device` lifted to the whole process state: its body reads
and writes only the sample dict. -/
def stepUpload (device : String) (w : World) : World :=
  { w with sample := upload_to_device w.sample device }

/-- `Optimizer.update_optimizer_lr` lifted to the whole process state. -/
def stepUpdateLr (epoch : Int) (w : World) : World :=
  { w with optim := update_optimizer_lr w.optim epoch }

/-- `Optimizer.clip_grad_and_step` lifted to the whole process state. -/
def stepClip (epoch batch : Int)
    (clipFn : Int → List Int → Except String (List Int))
    (step : TorchModelState → TorchModelState) (w : World) : World :=
  { w with model := clip_grad_and_step epoch batch clipFn step w.model }

/-- `set_random_seed` lifted to the whole process state. -/
def stepSetSeed (seed : Option Int) (drawn : Int) (w : World) : World :=
  { w with rng := set_random_seed seed drawn w.rng }

/-! ## Exception flow

Each function that performs fallible library or file-system calls is also
embedded in `Except`, the outcome of every external call entering as a
parameter, so that the presence or absence of a handler is visible: an
error outcome of a call either propagates to the caller or is swallowed. -/

/-- `create_folder`: check `os.path.exists`, call `os.makedirs` when the
folder is absent (the prints are pure). -/
def create_folder (pathExists : Except String Bool)
    (makedirs : Except String Unit) : Except String Unit := do
  let ex ← pathExists
  if !ex then do
    let _ ← makedirs
    pure ()
  else pure ()

/-- `write_report`: check `os.path.exists`, pick mode `"a"` or `"w"`, then
open/write/close (collapsed into one fallible call taking the mode). -/
def write_report (pathExists : Except String Bool)
    (openWriteClose : String → Except String Unit) : Except String Unit := do
  let ex ← pathExists
  let mode := if ex then "a" else "w"
  openWriteClose mode

/-- `_read_data` with the two `pd.read_csv` calls fallible. -/
def read_dataE (readCamelsde : Except String DF) (caravanExists : Bool)
    (readCaravan : Except String DF) : Except String DF := do
  let c ← readCamelsde
  if caravanExists then do
    let v ← readCaravan
    pure (c.join v)
  else pure c

/-- `_read_attributes` with the table reading fallible. -/
def read_attributesE (readTables : Except String (DF × DF))
    (entities_ids static_input : List String) : Except String DF := do
  let t ← readTables
  pure (read_attributes t.1 t.2 entities_ids static_input)

/-- `upload_to_device` with `tensor.to(device)` fallible. -/
def upload_to_deviceE (sample : List (String × Entry))
    (toDev : Entry → Except String Entry) :
    Except String (List (String × Entry)) :=
  sample.mapM (fun kv =>
    if kv.1 == "basin" || kv.1 == "date" then pure kv
    else do
      let v ← toDev kv.2
      pure (kv.1, v))

/-! ## Theorems -/

/-- C1: `clip_grad_and_step` calls the gradient clipper with a maximum norm
of 1; when the clipper raises, the optimizer step is skipped and the model
state (in particular the parameters) is returned unchanged; when it
succeeds, the optimizer step is performed on the clipped gradients. -/
theorem clip_grad_and_step_spec (epoch batch : Int)
    (clipFn : Int → List Int → Except String (List Int))
    (step : TorchModelState → TorchModelState) (st : TorchModelState) :
    (∀ e, clipFn 1 st.grads = .error e →
      clip_grad_and_step epoch batch clipFn step st = st)
    ∧ ∀ g, clipFn 1 st.grads = .ok g →
      clip_grad_and_step epoch batch clipFn step st
        = step { st with grads := g } := by
  constructor
  · intro e h
    simp [clip_grad_and_step, h]
  · intro g h
    simp [clip_grad_and_step, h]

/-- Witness for C1 at a clipper that always raises. -/
theorem clip_grad_and_step_spec_witness :
    clip_grad_and_step 1 2 (fun _ _ => .error "nan") id ⟨[3], [9]⟩
      = ⟨[3], [9]⟩ :=
  (clip_grad_and_step_spec 1 2 (fun _ _ => .error "nan") id ⟨[3], [9]⟩).1
    "nan" rfl

/-- C4: `_read_data` reads the CAMELS-DE series of the catchment id; when
the CARAVAN file of the mapped id `"camelsde_" ++ id` exists it returns
the outer join of the two tables, and otherwise it returns exactly the
CAMELS-DE table. -/
theorem read_data_spec (camelsdeFS : String → DF)
    (caravanFS : String → Option DF) (catch_id : String) :
    map_gauge_id catch_id = "camelsde_" ++ catch_id
    ∧ (∀ t, caravanFS ("camelsde_" ++ catch_id) = some t →
        read_data camelsdeFS caravanFS catch_id = (camelsdeFS catch_id).join t)
    ∧ (caravanFS ("camelsde_" ++ catch_id) = none →
        read_data camelsdeFS caravanFS catch_id = camelsdeFS catch_id) := by
  refine ⟨rfl, ?_, ?_⟩
  · intro t h
    simp [read_data, map_gauge_id, h]
  · intro h
    simp [read_data, map_gauge_id, h]

/-- Witness for C4 at a missing CARAVAN file. -/
theorem read_data_spec_witness :
    read_data (fun _ => ⟨["p"], [("d", [("p", 2)])]⟩) (fun _ => none) "9"
      = ⟨["p"], [("d", [("p", 2)])]⟩ :=
  (read_data_spec (fun _ => ⟨["p"], [("d", [("p", 2)])]⟩)
    (fun _ => none) "9").2.2 rfl

/-- C5: `update_optimizer_lr` acts by mode: in `"constant"` mode the state
is unchanged, in `"scheduler"` mode the scheduler advances exactly one
step and nothing else changes, in `"custom_scheduler"` mode every
parameter group's lr becomes `_find_learning_rate(epoch)` and nothing
else changes. -/
theorem update_optimizer_lr_spec (st : OptimizerState) (epoch : Int) :
    (st.learning_rate_type = "constant" →
      update_optimizer_lr st epoch = st)
    ∧ (st.learning_rate_type = "scheduler" →
      update_optimizer_lr st epoch
        = { st with scheduler_steps := st.scheduler_steps + 1 })
    ∧ (st.learning_rate_type = "custom_scheduler" →
      update_optimizer_lr st epoch
        = { st with param_groups := st.param_groups.map (fun _ => find_learning_rate st.learning_rate_dict epoch) }) := by
  refine ⟨?_, ?_, ?_⟩ <;> intro h <;> simp [update_optimizer_lr, h]

/-- Witness for C5 in scheduler mode. -/
theorem update_optimizer_lr_spec_witness :
    update_optimizer_lr ⟨"scheduler", [], 2, 1, 0, [some 1]⟩ 4
      = ⟨"scheduler", [], 2, 1, 1, [some 1]⟩ :=
  (update_optimizer_lr_spec ⟨"scheduler", [], 2, 1, 0, [some 1]⟩ 4).2.1 rfl

/-- C6 counterexample: `upload_to_device` does not leave the dict shared
with its caller unchanged — it rewrites the tensor entries' device — so
`set_random_seed` is not the only function mutating state visible to its
caller. -/
theorem upload_to_device_mutates_shared_dict :
    upload_to_device [("x", Entry.tens 3 "cpu")] "cuda"
      ≠ [("x", Entry.tens 3 "cpu")] := by
  decide

/-- C6 amended: no function in these modules touches the process-wide RNG
state except `set_random_seed` — the mutation performed by the others is
confined to the objects passed to them (the sample dict, the model and
optimizer state) — and `set_random_seed` installs the given seed (or the
value drawn from numpy when no seed is given) in the `random`, `numpy`,
`torch` and `torch.cuda` generators. -/
theorem rng_frame_spec (w : World) (device : String) (epoch batch : Int)
    (clipFn : Int → List Int → Except String (List Int))
    (step : TorchModelState → TorchModelState) (s drawn : Int) :
    (stepUpload device w).rng = w.rng
    ∧ (stepUpdateLr epoch w).rng = w.rng
    ∧ (stepClip epoch batch clipFn step w).rng = w.rng
    ∧ (stepSetSeed (some s) drawn w).rng = ⟨s, s, s, s⟩
    ∧ (stepSetSeed none drawn w).rng = ⟨drawn, drawn, drawn, drawn⟩ :=
  ⟨rfl, rfl, rfl, rfl, rfl⟩

/-- C7: the try/except of `clip_grad_and_step` is the only recovery: a
clipper error is swallowed and the state returned unchanged, while every
other operation propagates the first error of any of its external calls
(`os.path.exists`, `os.makedirs`, the file writes, the CSV reads,
`tensor.to`) to the caller, and the constructor's own `ValueError`
reaches the caller as well. -/
theorem only_clip_grad_recovers (e : String) (epoch batch : Int)
    (st : TorchModelState) (step : TorchModelState → TorchModelState)
    (mk : Except String Unit) (wr : String → Except String Unit)
    (rc : Except String DF) (t : DF) (b : Bool) (ent : Entry)
    (ids cols : List String) :
    clip_grad_and_step epoch batch (fun _ _ => .error e) step st = st
    ∧ create_folder (.error e) mk = .error e
    ∧ create_folder (.ok false) (.error e) = .error e
    ∧ write_report (.error e) wr = .error e
    ∧ write_report (.ok true) (fun _ => .error e) = .error e
    ∧ read_dataE (.error e) b rc = .error e
    ∧ read_dataE (.ok t) true (.error e) = .error e
    ∧ read_attributesE (.error e) ids cols = .error e
    ∧ upload_to_deviceE [("x", ent)] (fun _ => .error e) = .error e
    ∧ optimizerInit none ⟨none, none, none⟩ = .error .valueError :=
  ⟨rfl, rfl, rfl, rfl, rfl, rfl, rfl, rfl, rfl, rfl⟩

/-- C10: `upload_to_device` returns the updated dict: no key is added or
removed and their order is kept, an entry under `"basin"` or `"date"` is
untouched, and every other entry is replaced by its tensor moved to the
device. -/
theorem upload_to_device_pointwise (sample : List (String × Entry))
    (device : String) :
    (upload_to_device sample device).length = sample.length
    ∧ (upload_to_device sample device).map Prod.fst = sample.map Prod.fst
    ∧ (∀ (i : Nat) (kv : String × Entry), sample[i]? = some kv →
        (kv.1 = "basin" ∨ kv.1 = "date") →
        (upload_to_device sample device)[i]? = some kv)
    ∧ (∀ (i : Nat) (kv : String × Entry), sample[i]? = some kv →
        kv.1 ≠ "basin" → kv.1 ≠ "date" →
        (upload_to_device sample device)[i]?
          = some (kv.1, kv.2.toDevice device)) := by
  refine ⟨by simp [upload_to_device], ?_, ?_, ?_⟩
  · rw [upload_to_device, List.map_map]
    apply List.map_congr_left
    intro kv _
    by_cases h : (kv.1 == "basin" || kv.1 == "date") = true <;>
      simp [h, Function.comp]
  · intro i kv hi hb
    rw [upload_to_device, List.getElem?_map, hi]
    rcases hb with h | h <;> simp [h]
  · intro i kv hi h1 h2
    rw [upload_to_device, List.getElem?_map, hi]
    simp [h1, h2]

/-- Witness for C10 on a two-entry dict. -/
theorem upload_to_device_pointwise_witness :
    (upload_to_device [("basin", Entry.raw "b1"), ("x", Entry.tens 3 "cpu")]
        "cuda")[0]? = some ("basin", Entry.raw "b1")
    ∧ (upload_to_device [("basin", Entry.raw "b1"), ("x", Entry.tens 3 "cpu")]
        "cuda")[1]? = some ("x", Entry.tens 3 "cuda") := by
  have h := upload_to_device_pointwise
    [("basin", Entry.raw "b1"), ("x", Entry.tens 3 "cpu")] "cuda"
  exact ⟨h.2.2.1 0 ("basin", Entry.raw "b1") rfl (Or.inl rfl),
    h.2.2.2 1 ("x", Entry.tens 3 "cpu") rfl (by decide) (by decide)⟩

/-- C2: with a valid optimizer name the constructor is a three-way switch:
a float learning rate with neither scheduler key yields `"constant"`, a
float with both keys yields `"scheduler"`, a dict yields
`"custom_scheduler"`, and it raises `ValueError` exactly when the
configuration matches none of the three shapes. -/
theorem optimizer_init_three_way (optimizer : Option String)
    (cfg : ModelConfig) (hopt : optimizerClassAssigned optimizer = true) :
    (constantShape cfg = true → ∃ st, optimizerInit optimizer cfg = .ok st
        ∧ st.learning_rate_type = "constant")
    ∧ (schedulerShape cfg = true → ∃ st, optimizerInit optimizer cfg = .ok st
        ∧ st.learning_rate_type = "scheduler")
    ∧ (customShape cfg = true → ∃ st, optimizerInit optimizer cfg = .ok st
        ∧ st.learning_rate_type = "custom_scheduler")
    ∧ (optimizerInit optimizer cfg = .error .valueError ↔
        constantShape cfg = false ∧ schedulerShape cfg = false
          ∧ customShape cfg = false) := by
  obtain ⟨lr, ae, ag⟩ := cfg
  cases lr with
  | none =>
    cases ae <;> cases ag <;>
      simp [optimizerInit, constantShape, schedulerShape, customShape, hopt]
  | some cv =>
    cases cv <;> cases ae <;> cases ag <;>
      simp [optimizerInit, constantShape, schedulerShape, customShape, hopt]

/-- Witness for C2: a constant-shape configuration succeeds in constant
mode, and a float learning rate with only one scheduler key raises
`ValueError`. -/
theorem optimizer_init_three_way_witness :
    (∃ st, optimizerInit none ⟨some (.num 1), none, none⟩ = .ok st
        ∧ st.learning_rate_type = "constant")
    ∧ optimizerInit none ⟨some (.num 1), some 2, none⟩
        = .error .valueError := by
  have h1 := optimizer_init_three_way none ⟨some (.num 1), none, none⟩ rfl
  have h2 := optimizer_init_three_way none ⟨some (.num 1), some 2, none⟩ rfl
  exact ⟨h1.1 rfl, h2.2.2.2.mpr ⟨rfl, rfl, rfl⟩⟩

/-- C8: an optimizer name that is neither `None` nor `"adam"`
case-insensitively leaves the local `optimizer_class` unassigned, so a
configuration of any of the three valid shapes makes the constructor fail
with `UnboundLocalError` at the first use of the variable — not fall back
to Adam and not raise the `ValueError` reserved for invalid learning-rate
configurations. -/
theorem optimizer_init_unbound_local (s : String) (cfg : ModelConfig)
    (hname : pyLower s ≠ "adam")
    (hshape : constantShape cfg = true ∨ schedulerShape cfg = true
      ∨ customShape cfg = true) :
    optimizerClassAssigned (some s) = false
    ∧ optimizerInit (some s) cfg = .error .unboundLocalError := by
  have hassigned : optimizerClassAssigned (some s) = false := by
    simp [optimizerClassAssigned, hname]
  refine ⟨hassigned, ?_⟩
  obtain ⟨lr, ae, ag⟩ := cfg
  cases lr with
  | none => simp [constantShape, schedulerShape, customShape] at hshape
  | some cv =>
    cases cv with
    | num v =>
      cases ae <;> cases ag <;>
        simp [optimizerInit, hassigned, constantShape, schedulerShape,
          customShape] at hshape ⊢
    | dict d => simp [optimizerInit, hassigned]
    | other => simp [constantShape, schedulerShape, customShape] at hshape

/-- Witness for C8 with optimizer name `"sgd"`. -/
theorem optimizer_init_unbound_local_witness :
    optimizerClassAssigned (some "sgd") = false
    ∧ optimizerInit (some "sgd") ⟨some (.num 1), none, none⟩
        = .error .unboundLocalError :=
  optimizer_init_unbound_local "sgd" ⟨some (.num 1), none, none⟩
    (by decide) (Or.inl rfl)

/-- A key present among the dict's keys has a stored value. -/
theorem dictLookup_mem_isSome (d : List (Int × Rat)) (k : Int)
    (h : k ∈ d.map Prod.fst) : ∃ v, dictLookup d k = some v := by
  induction d with
  | nil => simp at h
  | cons p ds ih =>
    by_cases hp : p.1 = k
    · exact ⟨p.2, by simp [dictLookup, List.find?, hp]⟩
    · have hk : k ∈ ds.map Prod.fst := by
        rcases List.mem_cons.mp h with h' | h'
        · exact absurd h'.symm hp
        · exact h'
      obtain ⟨v, hv⟩ := ih hk
      refine ⟨v, ?_⟩
      have hpb : (p.1 == k) = false := beq_eq_false_iff_ne.mpr hp
      simpa [dictLookup, List.find?, hpb] using hv

/-- The loop returns `none` when the epoch is below every key it visits. -/
theorem findFirstLE_eq_none (d : List (Int × Rat)) (epoch : Int) :
    ∀ ks : List Int, (∀ k ∈ ks, epoch < k) → findFirstLE d epoch ks = none := by
  intro ks
  induction ks with
  | nil => intro _; rfl
  | cons k ks ih =>
    intro h
    have hk : ¬ k ≤ epoch := not_le.mpr (h k (by simp))
    simp only [findFirstLE, ge_iff_le, if_neg hk]
    exact ih (fun x hx => h x (by simp [hx]))

/-- On a list sorted in descending order, the loop stops at the greatest
visited key the epoch has reached and returns its stored value. -/
theorem findFirstLE_greatest (d : List (Int × Rat)) (epoch : Int) :
    ∀ ks : List Int, List.Sorted (· ≥ ·) ks →
      ∀ k0 ∈ ks, k0 ≤ epoch →
        ∃ k, k ∈ ks ∧ k ≤ epoch ∧ (∀ x ∈ ks, x ≤ epoch → x ≤ k)
          ∧ findFirstLE d epoch ks = dictLookup d k := by
  intro ks
  induction ks with
  | nil => intro _ k0 h; simp at h
  | cons k ks ih =>
    intro hs k0 hk0 hk0e
    rw [List.sorted_cons] at hs
    obtain ⟨hk, hs'⟩ := hs
    by_cases he : k ≤ epoch
    · refine ⟨k, by simp, he, ?_, ?_⟩
      · intro x hx _
        rcases List.mem_cons.mp hx with rfl | hx'
        · exact le_refl x
        · exact hk x hx'
      · simp only [findFirstLE, ge_iff_le, if_pos he]
    · have hk0' : k0 ∈ ks := by
        rcases List.mem_cons.mp hk0 with rfl | h'
        · exact absurd hk0e he
        · exact h'
      obtain ⟨kk, hmem, hke, hmax, heq⟩ := ih hs' k0 hk0' hk0e
      refine ⟨kk, by simp [hmem], hke, ?_, ?_⟩
      · intro x hx hxe
        rcases List.mem_cons.mp hx with rfl | hx'
        · exact absurd hxe he
        · exact hmax x hx' hxe
      · simp only [findFirstLE, ge_iff_le, if_neg he]
        exact heq

/-- C9: `_find_learning_rate` returns the value stored under the greatest
dict key that is at most the epoch; when the epoch is below every key the
loop falls through and returns `None`, and `update_optimizer_lr` in
`"custom_scheduler"` mode then writes that `None` into the lr of every
parameter group. -/
theorem find_learning_rate_spec (d : List (Int × Rat)) (epoch : Int) :
    (∀ k0 ∈ d.map Prod.fst, k0 ≤ epoch →
      ∃ k v, k ∈ d.map Prod.fst ∧ k ≤ epoch
        ∧ (∀ x ∈ d.map Prod.fst, x ≤ epoch → x ≤ k)
        ∧ dictLookup d k = some v ∧ find_learning_rate d epoch = some v)
    ∧ ((∀ k ∈ d.map Prod.fst, epoch < k) → find_learning_rate d epoch = none)
    ∧ (∀ st : OptimizerState, st.learning_rate_type = "custom_scheduler" →
        st.learning_rate_dict = d → (∀ k ∈ d.map Prod.fst, epoch < k) →
        (update_optimizer_lr st epoch).param_groups
          = st.param_groups.map (fun _ => (none : Option Rat))) := by
  have hperm := List.perm_insertionSort (α := Int) (· ≥ ·) (d.map Prod.fst)
  have hsorted := List.sorted_insertionSort (α := Int) (· ≥ ·) (d.map Prod.fst)
  refine ⟨?_, ?_, ?_⟩
  · intro k0 hk0 hk0e
    have hk0s : k0 ∈ List.insertionSort (· ≥ ·) (d.map Prod.fst) :=
      hperm.mem_iff.mpr hk0
    obtain ⟨k, hmem, hke, hmax, heq⟩ :=
      findFirstLE_greatest d epoch _ hsorted k0 hk0s hk0e
    have hkd : k ∈ d.map Prod.fst := hperm.mem_iff.mp hmem
    obtain ⟨v, hv⟩ := dictLookup_mem_isSome d k hkd
    exact ⟨k, v, hkd, hke,
      fun x hx hxe => hmax x (hperm.mem_iff.mpr hx) hxe, hv,
      by rw [find_learning_rate, heq, hv]⟩
  · intro h
    exact findFirstLE_eq_none d epoch _ (fun k hk => h k (hperm.mem_iff.mp hk))
  · intro st h1 h2 h3
    have hnone : find_learning_rate d epoch = none :=
      findFirstLE_eq_none d epoch _ (fun k hk => h3 k (hperm.mem_iff.mp hk))
    simp [update_optimizer_lr, h1, h2, hnone]

/-- Witness for C9: on the dict `{1: 2, 5: 7}` epoch 3 selects key 1 and
epoch 0 falls through to `None`. -/
theorem find_learning_rate_spec_witness :
    find_learning_rate [(1, (2 : Rat)), (5, 7)] 0 = none
    ∧ ∃ k v, k ∈ [(1, (2 : Rat)), (5, 7)].map Prod.fst ∧ k ≤ 3
        ∧ (∀ x ∈ [(1, (2 : Rat)), (5, 7)].map Prod.fst, x ≤ 3 → x ≤ k)
        ∧ dictLookup [(1, (2 : Rat)), (5, 7)] k = some v
        ∧ find_learning_rate [(1, (2 : Rat)), (5, 7)] 3 = some v :=
  ⟨(find_learning_rate_spec [(1, (2 : Rat)), (5, 7)] 0).2.1 (by decide),
    (find_learning_rate_spec [(1, (2 : Rat)), (5, 7)] 3).1 1 (by decide)
      (by decide)⟩

/-- C3 counterexample: the claim reads the CARAVAN index rewriting as
stripping the LEADING `"camelsde_"`, but `str.replace("camelsde_", "")`
removes every occurrence, and the two merged results differ on the label
`"camelsde_camelsde_9"`. -/
theorem read_attributes_not_leading_strip :
    read_attributes ⟨["a"], [("9", [("a", 1)])]⟩
        ⟨["q"], [("camelsde_camelsde_9", [("q", 5)])]⟩ ["9"] ["q"]
      ≠ read_attributes_claimed ⟨["a"], [("9", [("a", 1)])]⟩
        ⟨["q"], [("camelsde_camelsde_9", [("q", 5)])]⟩ ["9"] ["q"] := by
  decide

/-- C3 amended: `_read_attributes` removes every occurrence of
`"camelsde_"` from the CARAVAN index (in particular the prefix), outer
joins CAMELS-DE with the rewritten CARAVAN table suffixing duplicate
CARAVAN column names with `"_caravan"`, and returns that merged table
restricted to the `entities_ids` rows and `static_input` columns, which
become its row and column labels. -/
theorem read_attributes_spec (camelsde caravan : DF) (e s : List String) :
    read_attributes camelsde caravan e s
      = (camelsde.join (caravan.renameIndex pyReplaceCamelsde)).loc e s
    ∧ (read_attributes camelsde caravan e s).cols = s
    ∧ (read_attributes camelsde caravan e s).rows.map Prod.fst = e := by
  refine ⟨rfl, rfl, ?_⟩
  simp [read_attributes, DF.loc, List.map_map, Function.comp_def]

end Hy2DL
